import Mathlib

/-!
Verification of the 2mpeg-dash encoding pipeline (src/main.py).

The Python source is shallowly embedded: pure computations become Lean
functions over `Int`, `Nat`, `ℚ` and `List`; Python strings that must be
parsed character by character are `List Char`; fallible probe queries are
`Except Unit` values; external command invocations are modelled as the
argument lists the program builds for them.
-/

/-! ### Definitions -/

/-- `DEFAULT_LADDER = [2160, 1440, 1080, 720, 480]` (main.py line 11). -/
def DEFAULT_LADDER : List Int := [2160, 1440, 1080, 720, 480]

/-- The per-entry condition of the ladder list comprehension
`h <= h_src and (args.max_height == 0 or h <= args.max_height)`
(main.py line 242). -/
def ladderPred (h_src max_height h : Int) : Bool :=
  decide (h ≤ h_src) && (decide (max_height = 0) || decide (h ≤ max_height))

/-- Ladder selection from main.py lines 242-244:
`ladder = [h for h in DEFAULT_LADDER if h <= h_src and (args.max_height == 0 or h <= args.max_height)]`
followed by `if not ladder: ladder = [h_src]`. -/
def selectLadder (h_src max_height : Int) : List Int :=
  if (DEFAULT_LADDER.filter (ladderPred h_src max_height)).isEmpty then [h_src]
  else DEFAULT_LADDER.filter (ladderPred h_src max_height)

/-- Floor of a rational, computed on the numerator and denominator so that the
kernel can evaluate it. -/
def ratFloor (q : ℚ) : ℤ := Int.fdiv q.num q.den

/-- Python `round` on a rational value: round half to even. -/
def pyRound (q : ℚ) : ℤ :=
  if q - ratFloor q < 1/2 then ratFloor q
  else if 1/2 < q - ratFloor q then ratFloor q + 1
  else if ratFloor q % 2 = 0 then ratFloor q else ratFloor q + 1

/-- `gop = max(1, round(get_avg_fps(src)*2))` (main.py line 238), as a function
of the average frame rate. -/
def gop (fps : ℚ) : ℤ := max 1 (pyRound (fps * 2))

/-- `build_filter` (main.py lines 72-84): the scaling filter graph and the
output labels.  The Python f-strings `f"{prefix}{i}"` and `f"{prefix}{h}"`
become string concatenations with `toString`. -/
def build_filter (heights : List Int) (pre : String) : String × List String :=
  let n := heights.length
  let split_labels := (List.range n).map (fun i => pre ++ toString i)
  let split := "[0:v]split=" ++ toString n ++
    String.join (split_labels.map (fun l => "[" ++ l ++ "]")) ++ ";"
  let scales := heights.enum.map (fun ih =>
    "[" ++ split_labels.getD ih.1 "" ++ "]scale=-2:" ++ toString ih.2 ++
      ":flags=bicubic[" ++ (pre ++ toString ih.2) ++ "]")
  let out_labels := heights.map (fun h => pre ++ toString h)
  (split ++ String.join (scales.map (fun s => s ++ ";")), out_labels)

/-- All stream labels a `build_filter` call introduces: the internal split
labels `prefix + i` and the scaled output labels `prefix + h`. -/
def allLabels (heights : List Int) (pre : String) : List String :=
  (List.range heights.length).map (fun i => pre ++ toString i) ++
    (build_filter heights pre).2

/-- Boolean test that the first character list starts the second. -/
def strPreB : List Char → List Char → Bool
  | [], _ => true
  | _ :: _, [] => false
  | a :: as, b :: bs => a == b && strPreB as bs

/-- The H.264 per-rung rate-control record (main.py lines 13-19). -/
structure H264Params where
  br : String
  maxrate : String
  bufsize : String
  crf : Nat
deriving DecidableEq

/-- `H264_PARAMS` (main.py lines 13-19), as a key-value list with the unique
canonical heights as keys. -/
def H264_PARAMS : List (Int × H264Params) :=
  [(2160, ⟨"12000k", "12840k", "24000k", 19⟩),
   (1440, ⟨"7000k", "7490k", "14000k", 20⟩),
   (1080, ⟨"5000k", "5350k", "10000k", 20⟩),
   (720, ⟨"2800k", "2996k", "5600k", 21⟩),
   (480, ⟨"1400k", "1498k", "2800k", 22⟩)]

/-- `H264_PARAMS.get(h, dict(br="2500k", maxrate="2680k", bufsize="5000k", crf=21))`
(main.py line 91): total lookup with the fallback default. -/
def h264Get (h : Int) : H264Params :=
  ((H264_PARAMS.find? (fun e => e.1 == h)).map Prod.snd).getD
    ⟨"2500k", "2680k", "5000k", 21⟩

/-- The per-rung argument block appended by `encode_h264` (main.py lines 90-100). -/
def h264RungArgs (h : Int) (label : String) (g : ℤ) (preset264 outdir : String) :
    List String :=
  ["-map", "[" ++ label ++ "]",
   "-c:v", "libx264", "-preset", preset264, "-pix_fmt", "yuv420p",
   "-crf", toString (h264Get h).crf, "-profile:v", "high",
   "-g", toString g, "-keyint_min", toString g, "-sc_threshold", "0",
   "-b:v", (h264Get h).br, "-maxrate", (h264Get h).maxrate,
   "-bufsize", (h264Get h).bufsize,
   "-movflags", "+faststart",
   outdir ++ "/h264_" ++ toString h ++ ".mp4"]

/-- The full `ffmpeg` argument list built by `encode_h264` (main.py lines 86-101). -/
def encode_h264_args (src outdir : String) (heights : List Int) (g : ℤ)
    (preset264 : String) : List String :=
  (heights.zip (build_filter heights "s").2).foldl
    (fun acc hl => acc ++ h264RungArgs hl.1 hl.2 g preset264 outdir)
    ["ffmpeg", "-y", "-i", src, "-filter_complex", (build_filter heights "s").1]

/-- `AV1_CRF = {2160:30, 1440:31, 1080:32, 720:33, 480:34}` (main.py line 21). -/
def AV1_CRF : List (Int × Nat) :=
  [(2160, 30), (1440, 31), (1080, 32), (720, 33), (480, 34)]

/-- `AV1_CRF.get(h, 32)` (main.py line 108): total lookup with fallback 32. -/
def av1CrfGet (h : Int) : Nat :=
  ((AV1_CRF.find? (fun e => e.1 == h)).map Prod.snd).getD 32

/-- The per-rung argument block appended by `encode_av1` (main.py lines 107-127):
the `crf` is looked up once, then the encoder branch only changes the codec
name and auxiliary speed/tiling flags. -/
def av1RungArgs (encoder : String) (h : Int) (label : String) (g : ℤ)
    (outdir : String) (cpu_used : ℤ) : List String :=
  if encoder = "svt" then
    ["-map", "[" ++ label ++ "]",
     "-c:v", "libsvtav1", "-pix_fmt", "yuv420p",
     "-crf", toString (av1CrfGet h), "-g", toString g,
     "-preset", "8",
     "-movflags", "+faststart",
     outdir ++ "/av1_" ++ toString h ++ ".mp4"]
  else
    ["-map", "[" ++ label ++ "]",
     "-c:v", "libaom-av1", "-pix_fmt", "yuv420p",
     "-crf", toString (av1CrfGet h), "-b:v", "0",
     "-g", toString g, "-row-mt", "1", "-cpu-used", toString cpu_used,
     "-tile-columns", "1", "-tile-rows", "1",
     "-movflags", "+faststart",
     outdir ++ "/av1_" ++ toString h ++ ".mp4"]

/-- The full `ffmpeg` argument list built by `encode_av1` (main.py lines 103-128). -/
def encode_av1_args (src outdir : String) (heights : List Int) (g : ℤ)
    (encoder : String) (cpu_used : ℤ) : List String :=
  (heights.zip (build_filter heights "t").2).foldl
    (fun acc hl => acc ++ av1RungArgs encoder hl.1 hl.2 g outdir cpu_used)
    ["ffmpeg", "-y", "-i", src, "-filter_complex", (build_filter heights "t").1]

/-- The value that follows the first occurrence of `flag` in an argument list. -/
def flagValue (flag : String) : List String → Option String
  | a :: b :: rest => if a = flag then some b else flagValue flag (b :: rest)
  | _ => none

/-- Digit-string to number, `none` when empty or any character is not a digit
(the success condition of Python `int`/`float` on an unsigned integer literal). -/
def natOfDigits (cs : List Char) : Option Nat :=
  if cs ≠ [] ∧ cs.all Char.isDigit then
    some (cs.foldl (fun a c => a * 10 + (c.toNat - 48)) 0)
  else none

/-- Python `str.split(sep)` on character lists: splits at every separator and
keeps empty pieces. -/
def splitChar (sep : Char) : List Char → List (List Char)
  | [] => [[]]
  | c :: cs =>
    if c = sep then [] :: splitChar sep cs
    else
      match splitChar sep cs with
      | [] => [[c]]
      | r :: rs => (c :: r) :: rs

/-- Python `int(s)`: optional sign then digits, `none` on anything else. -/
def pyInt (s : List Char) : Option Int :=
  match s with
  | '-' :: rest => (natOfDigits rest).map (fun n => -(n : Int))
  | '+' :: rest => (natOfDigits rest).map (fun n => (n : Int))
  | _ => (natOfDigits s).map (fun n => (n : Int))

/-- Magnitude part of Python `float(s)`: digits with an optional single
decimal point, at least one digit overall. -/
def pyFloatMag (s : List Char) : Option ℚ :=
  match splitChar '.' s with
  | [ip] => (natOfDigits ip).map (fun n => (n : ℚ))
  | [ip, fp] =>
    if ip = [] ∧ fp = [] then none
    else
      match (if ip = [] then some 0 else natOfDigits ip),
            (if fp = [] then some 0 else natOfDigits fp) with
      | some a, some b => some ((a : ℚ) + (b : ℚ) / 10 ^ fp.length)
      | _, _ => none
  | _ => none

/-- Python `float(s)`: optional sign then a decimal magnitude.  Rationals stand
in for IEEE floats; all values the program compares are exactly representable. -/
def pyFloat (s : List Char) : Option ℚ :=
  match s with
  | '-' :: rest => (pyFloatMag rest).map (fun q => -q)
  | '+' :: rest => pyFloatMag rest
  | _ => pyFloatMag s

/-- `get_src_height` (main.py lines 42-47): first probed value parsed as an
int, any failure (probe error, missing value, parse error) gives 1080. -/
def get_src_height (probe : Except Unit (List (List Char))) : Int :=
  match probe with
  | .error _ => 1080
  | .ok vals =>
    match vals with
    | [] => 1080
    | v :: _ =>
      match pyInt v with
      | some n => n
      | none => 1080

/-- The fraction branch of `get_avg_fps` (main.py lines 54-56):
`den = float(den) if float(den) != 0 else 1.0; return float(num)/den`,
with a `float` parse failure raising into the handler that returns 25.0. -/
def parse_fraction (num den : List Char) : ℚ :=
  match pyFloat den with
  | none => 25
  | some d =>
    match pyFloat num with
    | none => 25
    | some nn => nn / (if d ≠ 0 then d else 1)

/-- `get_avg_fps` (main.py lines 49-59): parses the probed frame-rate string,
a fraction `num/den` with a zero denominator replaced by 1.0; any failure
(probe error, missing value, wrong number of `/` parts, unparseable part)
gives 25.0. -/
def get_avg_fps (probe : Except Unit (List (List Char))) : ℚ :=
  match probe with
  | .error _ => 25
  | .ok vals =>
    match vals with
    | [] => 25
    | frac :: _ =>
      if '/' ∈ frac then
        match splitChar '/' frac with
        | [num, den] => parse_fraction num den
        | _ => 25
      else
        match pyFloat frac with
        | some x => x
        | none => 25

/-- `has_audio` (main.py lines 61-66): true iff the audio-stream index query
succeeds and returns a non-empty list. -/
def has_audio (probe : Except Unit (List (List Char))) : Bool :=
  match probe with
  | .error _ => false
  | .ok vals => decide (0 < vals.length)

/-- The `ffmpeg` audio invocation of `extract_audio` (main.py line 134). -/
def audio_cmd (src out_m4a aac_bitrate : String) : List String :=
  ["ffmpeg", "-y", "-i", src, "-vn", "-c:a", "aac", "-b:a", aac_bitrate,
   "-ac", "2", out_m4a]

/-- `extract_audio` (main.py lines 130-135): `None` when the prober reports no
audio; otherwise the single stereo AAC encode command and the returned path. -/
def extract_audio (probe : Except Unit (List (List Char)))
    (src out_m4a aac_bitrate : String) : Option (List String × String) :=
  if has_audio probe then some (audio_cmd src out_m4a aac_bitrate, out_m4a)
  else none

/-- `packager = "shaka" if have("packager") else ("mp4box" if have("MP4Box") else "")`
(main.py line 210), from the tool-availability oracle. -/
def pick_packager (hv : String → Bool) : String :=
  if hv "packager" then "shaka" else if hv "MP4Box" then "mp4box" else ""

/-- The packaging backend main invokes for each source file (main.py lines
210-212 and 269-272): the run aborts when no packager is available, otherwise
every file is packaged with the one backend chosen before the loop. -/
def main_packager_calls (hv : String → Bool) (files : List String) :
    Option (List (String × String)) :=
  if pick_packager hv = "" then none
  else some (files.map (fun f =>
    (f, if pick_packager hv = "shaka" then "shaka" else "mp4box")))

/-! ### Helper lemmas -/

theorem isEmpty_false_of_ne_nil {α : Type} {l : List α} (h : l ≠ []) :
    l.isEmpty = false := by
  cases l with
  | nil => exact absurd rfl h
  | cons a t => rfl

theorem selectLadder_of_filter_ne_nil {H C : Int}
    (h : DEFAULT_LADDER.filter (ladderPred H C) ≠ []) :
    selectLadder H C = DEFAULT_LADDER.filter (ladderPred H C) := by
  unfold selectLadder
  rw [isEmpty_false_of_ne_nil h]
  rfl

theorem selectLadder_of_filter_nil {H C : Int}
    (h : DEFAULT_LADDER.filter (ladderPred H C) = []) :
    selectLadder H C = [H] := by
  unfold selectLadder
  rw [h]
  rfl

theorem ratFloor_eq_floor (q : ℚ) : ratFloor q = ⌊q⌋ := by
  rw [ratFloor, Rat.floor_def]
  exact Int.fdiv_eq_ediv q.num (Int.ofNat_nonneg q.den)

theorem pyRound_eq_floor (q : ℚ) (h : q - ⌊q⌋ < 1/2) : pyRound q = ⌊q⌋ := by
  unfold pyRound
  rw [ratFloor_eq_floor, if_pos h]

theorem pyRound_eq_floor_add_one (q : ℚ) (h : 1/2 < q - ⌊q⌋) :
    pyRound q = ⌊q⌋ + 1 := by
  unfold pyRound
  have h2 : ¬(q - (⌊q⌋ : ℚ) < 1/2) := by linarith
  rw [ratFloor_eq_floor, if_neg h2, if_pos h]

theorem gop_ge_one (fps : ℚ) : 1 ≤ gop fps := le_max_left 1 _

theorem gop_23976 : gop (23976/1000) = 48 := by
  unfold gop
  have hq : (23976/1000 : ℚ) * 2 = 5994/125 := by norm_num
  rw [hq]
  have hf : ⌊(5994/125 : ℚ)⌋ = 47 := by
    rw [Int.floor_eq_iff]
    constructor <;> norm_num
  have hr : pyRound (5994/125) = 48 := by
    have h := pyRound_eq_floor_add_one (5994/125) (by rw [hf]; norm_num)
    rw [hf] at h
    norm_num at h
    exact h
  rw [hr]
  decide

theorem gop_zero : gop 0 = 1 := by
  unfold gop
  have hr : pyRound (0 * 2) = 0 := by
    have h0 : (0 * 2 : ℚ) = 0 := by norm_num
    rw [h0]
    have h := pyRound_eq_floor 0 (by norm_num)
    simpa using h
  rw [hr]
  decide

theorem strPreB_total_of_append_eq :
    ∀ (a b x y : List Char), a ++ x = b ++ y →
      strPreB a b = true ∨ strPreB b a = true := by
  intro a
  induction a with
  | nil =>
    intro b x y _
    exact Or.inl rfl
  | cons c cs ih =>
    intro b x y h
    cases b with
    | nil => exact Or.inr rfl
    | cons d ds =>
      simp only [List.cons_append, List.cons.injEq] at h
      obtain ⟨rfl, h2⟩ := h
      rcases ih ds x y h2 with h3 | h3
      · exact Or.inl (by simp [strPreB, h3])
      · exact Or.inr (by simp [strPreB, h3])

theorem mem_allLabels {heights : List Int} {p : String} {l : String}
    (h : l ∈ allLabels heights p) : ∃ t : String, l = p ++ t := by
  simp only [allLabels, build_filter, List.mem_append, List.mem_map,
    List.mem_range] at h
  rcases h with ⟨i, _, rfl⟩ | ⟨x, _, rfl⟩
  · exact ⟨toString i, rfl⟩
  · exact ⟨toString x, rfl⟩

/-- C9: for every sourceHeight `H` and strictly negative cap `C`, a negative
cap is not ignored: it excludes every canonical height and the ladder is the
single-rung fallback `[H]`. -/
theorem c9_negative_cap (H C : Int) (hC : C < 0) : selectLadder H C = [H] := by
  have hf : DEFAULT_LADDER.filter (ladderPred H C) = [] := by
    rw [List.filter_eq_nil_iff]
    intro a ha
    have hpos : (0 : ℤ) < a := by
      simp only [DEFAULT_LADDER, List.mem_cons, List.not_mem_nil, or_false] at ha
      rcases ha with rfl | rfl | rfl | rfl | rfl <;> norm_num
    simp only [ladderPred, Bool.and_eq_true, Bool.or_eq_true, decide_eq_true_eq]
    omega
  exact selectLadder_of_filter_nil hf

/-- C9 witness: `selectLadder 1080 (-1) = [1080]`. -/
theorem c9_witness : (-1 : ℤ) < 0 ∧ selectLadder 1080 (-1) = [1080] :=
  ⟨by decide, c9_negative_cap 1080 (-1) (by decide)⟩

/-- C1 counterexample: at sourceHeight 1080 and capHeight -1 the claim
predicts the filter ignores the non-positive cap, i.e. the ladder would be
the entries of `DEFAULT_LADDER` that are at most 1080 (a non-empty list, so
no fallback); the code instead applies the cap and falls back to `[1080]`. -/
theorem c1_counterexample :
    selectLadder 1080 (-1) ≠ DEFAULT_LADDER.filter (fun h => decide (h ≤ (1080 : ℤ))) := by
  decide

/-- C1 (amended: the cap clause applies whenever `C ≠ 0`, so a negative cap
also filters): the ladder is the fixed descending list filtered to entries
`≤ H` and (`C = 0` or `≤ C`), hence strictly descending and never empty, and
it is exactly `[H]` when no entry qualifies. -/
theorem c1_ladder_selection (H C : Int) :
    List.Pairwise (fun a b => a > b) (selectLadder H C)
    ∧ selectLadder H C ≠ []
    ∧ (∀ x ∈ DEFAULT_LADDER.filter (ladderPred H C), x ≤ H ∧ (C = 0 ∨ x ≤ C))
    ∧ (DEFAULT_LADDER.filter (ladderPred H C) ≠ [] →
        selectLadder H C = DEFAULT_LADDER.filter (ladderPred H C))
    ∧ (DEFAULT_LADDER.filter (ladderPred H C) = [] → selectLadder H C = [H]) := by
  refine ⟨?_, ?_, ?_, fun h => selectLadder_of_filter_ne_nil h,
    fun h => selectLadder_of_filter_nil h⟩
  · by_cases h : DEFAULT_LADDER.filter (ladderPred H C) = []
    · rw [selectLadder_of_filter_nil h]
      exact List.pairwise_singleton _ _
    · rw [selectLadder_of_filter_ne_nil h]
      exact List.Pairwise.filter _ (by decide)
  · by_cases h : DEFAULT_LADDER.filter (ladderPred H C) = []
    · rw [selectLadder_of_filter_nil h]
      simp
    · rw [selectLadder_of_filter_ne_nil h]
      exact h
  · intro x hx
    have hp := (List.mem_filter.1 hx).2
    simp only [ladderPred, Bool.and_eq_true, Bool.or_eq_true,
      decide_eq_true_eq] at hp
    exact hp

/-- C1 witness: with sourceHeight 1080 and cap 0 the selection equals the
filtered canonical list, which is `[1080, 720, 480]`. -/
theorem c1_witness :
    selectLadder 1080 0 = DEFAULT_LADDER.filter (ladderPred 1080 0)
    ∧ DEFAULT_LADDER.filter (ladderPred 1080 0) = [1080, 720, 480] :=
  ⟨(c1_ladder_selection 1080 0).2.2.2.1 (by decide), by decide⟩

/-- C3 counterexample: the two distinct prefixes "s" and "s4" collide: the
call on heights `[480]` with prefix "s" and the call on heights `[80]` with
prefix "s4" both produce the output label "s480". -/
theorem c3_counterexample :
    "s" ≠ "s4"
    ∧ "s480" ∈ (build_filter [480] "s").2
    ∧ "s480" ∈ (build_filter [80] "s4").2 := by
  refine ⟨by decide, ?_, ?_⟩ <;> simp [build_filter] <;> decide

/-- C3 (amended: label disjointness needs that neither prefix starts the
other, not mere inequality): `build_filter` returns one output label per
height, in input order, each the prefix followed by the height; and when
neither prefix is an initial segment of the other, no label (output or
internal split label) of one call occurs among the labels of the other. -/
theorem c3_build_filter (hs₁ hs₂ : List Int) (p₁ p₂ : String) :
    (build_filter hs₁ p₁).2 = hs₁.map (fun h => p₁ ++ toString h)
    ∧ ((build_filter hs₁ p₁).2).length = hs₁.length
    ∧ (strPreB p₁.data p₂.data = false → strPreB p₂.data p₁.data = false →
        ∀ l ∈ allLabels hs₁ p₁, l ∉ allLabels hs₂ p₂) := by
  refine ⟨rfl, by simp [build_filter], ?_⟩
  intro h1 h2 l hl hl2
  obtain ⟨t₁, rfl⟩ := mem_allLabels hl
  obtain ⟨t₂, he⟩ := mem_allLabels hl2
  have hd : p₁.data ++ t₁.data = p₂.data ++ t₂.data := by
    rw [← String.data_append, ← String.data_append, he]
  rcases strPreB_total_of_append_eq _ _ _ _ hd with h3 | h3
  · rw [h1] at h3
    exact Bool.false_ne_true h3
  · rw [h2] at h3
    exact Bool.false_ne_true h3

/-- C3 witness: with the disjoint prefixes "s" and "t" the label "s480" is an
output label of the first call and does not occur among the other call's
labels. -/
theorem c3_witness :
    "s480" ∈ allLabels [480] "s" ∧ "s480" ∉ allLabels [80] "t" :=
  ⟨by decide,
   (c3_build_filter [480] [80] "s" "t").2.2 (by decide) (by decide) "s480" (by decide)⟩

theorem bracket_ne_crf (s : String) : ("[" ++ s ++ "]") ≠ "-crf" := by
  intro h
  have hd : ("[" ++ s ++ "]").data = "-crf".data := by rw [h]
  rw [String.data_append, String.data_append] at hd
  have hb : "[".data = ['['] := rfl
  rw [hb] at hd
  rw [List.singleton_append] at hd
  exact absurd (List.head_eq_of_cons_eq hd) (by decide)

theorem flagValue_cons_ne {flag a b : String} {rest : List String} (h : a ≠ flag) :
    flagValue flag (a :: b :: rest) = flagValue flag (b :: rest) := by
  simp [flagValue, h]

theorem flagValue_cons_eq {flag b : String} {rest : List String} :
    flagValue flag (flag :: b :: rest) = some b := by
  simp [flagValue]

/-- C4: the H.264 rate-control lookup is total: any height outside the
canonical table keys maps to the fallback `br="2500k"`, `maxrate="2680k"`,
`bufsize="5000k"`, `crf=21`. -/
theorem c4_h264_fallback (h : Int) (hh : h ∉ [(2160 : ℤ), 1440, 1080, 720, 480]) :
    h264Get h = ⟨"2500k", "2680k", "5000k", 21⟩ := by
  simp only [List.mem_cons, List.not_mem_nil, or_false, not_or] at hh
  obtain ⟨h1, h2, h3, h4, h5⟩ := hh
  have e1 : ((2160 : ℤ) == h) = false := beq_eq_false_iff_ne.2 (Ne.symm h1)
  have e2 : ((1440 : ℤ) == h) = false := beq_eq_false_iff_ne.2 (Ne.symm h2)
  have e3 : ((1080 : ℤ) == h) = false := beq_eq_false_iff_ne.2 (Ne.symm h3)
  have e4 : ((720 : ℤ) == h) = false := beq_eq_false_iff_ne.2 (Ne.symm h4)
  have e5 : ((480 : ℤ) == h) = false := beq_eq_false_iff_ne.2 (Ne.symm h5)
  simp [h264Get, H264_PARAMS, List.find?, e1, e2, e3, e4, e5]

/-- C4 witness: height 100 is non-canonical and gets the fallback parameters. -/
theorem c4_witness :
    (100 : ℤ) ∉ [(2160 : ℤ), 1440, 1080, 720, 480]
    ∧ h264Get 100 = ⟨"2500k", "2680k", "5000k", 21⟩ :=
  ⟨by decide, c4_h264_fallback 100 (by decide)⟩

/-- C7: for every height, both AV1 back-ends pass `-crf` with the value from
the one static table lookup `av1CrfGet` (fallback 32 for non-canonical
heights); the back-end branch never changes the CRF used. -/
theorem c7_av1_crf_parity (h : Int) (label : String) (g cpu : ℤ) (outdir : String) :
    flagValue "-crf" (av1RungArgs "svt" h label g outdir cpu)
      = some (toString (av1CrfGet h))
    ∧ flagValue "-crf" (av1RungArgs "aom" h label g outdir cpu)
      = some (toString (av1CrfGet h))
    ∧ (h ∉ [(2160 : ℤ), 1440, 1080, 720, 480] → av1CrfGet h = 32) := by
  refine ⟨?_, ?_, ?_⟩
  · show flagValue "-crf"
      (if ("svt" : String) = "svt" then _ else _) = _
    rw [if_pos rfl]
    rw [flagValue_cons_ne (by decide), flagValue_cons_ne (bracket_ne_crf label),
      flagValue_cons_ne (by decide), flagValue_cons_ne (by decide),
      flagValue_cons_ne (by decide), flagValue_cons_ne (by decide),
      flagValue_cons_eq]
  · show flagValue "-crf"
      (if ("aom" : String) = "svt" then _ else _) = _
    rw [if_neg (by decide)]
    rw [flagValue_cons_ne (by decide), flagValue_cons_ne (bracket_ne_crf label),
      flagValue_cons_ne (by decide), flagValue_cons_ne (by decide),
      flagValue_cons_ne (by decide), flagValue_cons_ne (by decide),
      flagValue_cons_eq]
  · intro hh
    simp only [List.mem_cons, List.not_mem_nil, or_false, not_or] at hh
    obtain ⟨h1, h2, h3, h4, h5⟩ := hh
    have e1 : ((2160 : ℤ) == h) = false := beq_eq_false_iff_ne.2 (Ne.symm h1)
    have e2 : ((1440 : ℤ) == h) = false := beq_eq_false_iff_ne.2 (Ne.symm h2)
    have e3 : ((1080 : ℤ) == h) = false := beq_eq_false_iff_ne.2 (Ne.symm h3)
    have e4 : ((720 : ℤ) == h) = false := beq_eq_false_iff_ne.2 (Ne.symm h4)
    have e5 : ((480 : ℤ) == h) = false := beq_eq_false_iff_ne.2 (Ne.symm h5)
    simp [av1CrfGet, AV1_CRF, List.find?, e1, e2, e3, e4, e5]

/-- C7 witness: at the non-canonical height 360 both back-ends pass
`-crf 32`. -/
theorem c7_witness :
    flagValue "-crf" (av1RungArgs "svt" 360 "t360" 48 "o" 6) = some "32"
    ∧ flagValue "-crf" (av1RungArgs "aom" 360 "t360" 48 "o" 6) = some "32"
    ∧ av1CrfGet 360 = 32 := by
  refine ⟨?_, ?_, (c7_av1_crf_parity 360 "t360" 48 6 "o").2.2 (by decide)⟩
  · rw [(c7_av1_crf_parity 360 "t360" 48 6 "o").1]
    decide
  · rw [(c7_av1_crf_parity 360 "t360" 48 6 "o").2.1]
    decide

theorem splitChar_append_sep (sep : Char) (ds rest : List Char) (h : sep ∉ ds) :
    splitChar sep (ds ++ sep :: rest) = ds :: splitChar sep rest := by
  induction ds with
  | nil => simp [splitChar]
  | cons c cs ih =>
    simp only [List.mem_cons, not_or] at h
    obtain ⟨h1, h2⟩ := h
    have hstep : splitChar sep (c :: (cs ++ sep :: rest)) =
        if c = sep then [] :: splitChar sep (cs ++ sep :: rest)
        else match splitChar sep (cs ++ sep :: rest) with
          | [] => [[c]]
          | r :: rs => (c :: r) :: rs := rfl
    rw [List.cons_append, hstep, if_neg (Ne.symm h1), ih h2]

/-- C5: any probe failure is absorbed: the prober returns the defaults
height 1080, fps 25.0, has-audio false, both when the external query raises
and when its output fails to parse, and no error propagates (the functions
are total). -/
theorem c5_probe_defaults :
    get_src_height (Except.error ()) = 1080
    ∧ get_avg_fps (Except.error ()) = 25
    ∧ has_audio (Except.error ()) = false
    ∧ get_src_height (Except.ok []) = 1080
    ∧ get_src_height (Except.ok [['a', 'b', 'c']]) = 1080
    ∧ get_avg_fps (Except.ok [['a', '/', 'b']]) = 25 := by
  refine ⟨rfl, rfl, rfl, rfl, by decide, ?_⟩
  rfl

/-- C6: audio extraction returns no track exactly when the prober reports no
audio stream; otherwise it is the single stereo (`-ac 2`) AAC (`-c:a aac`)
encode at the configured bitrate, and the track path is returned. -/
theorem c6_extract_audio (probe : Except Unit (List (List Char)))
    (vals : List (List Char)) (src out br : String) :
    extract_audio probe src out br
      = (if has_audio probe then some (audio_cmd src out br, out) else none)
    ∧ has_audio (Except.ok vals) = !vals.isEmpty
    ∧ (extract_audio (Except.ok vals) src out br).isNone = vals.isEmpty := by
  refine ⟨rfl, ?_, ?_⟩
  · cases vals with
    | nil => rfl
    | cons v vs => simp [has_audio]
  · cases vals with
    | nil => rfl
    | cons v vs => simp [extract_audio, has_audio]

/-- C10: a frame-rate fraction with a zero denominator is not a division by
zero and not the failure default: the denominator is replaced by 1.0 and the
parsed numerator is returned as the fps. -/
theorem c10_zero_denominator (ds : List Char) (n : ℚ)
    (h1 : pyFloat ds = some n) (h2 : '/' ∉ ds) :
    get_avg_fps (Except.ok [ds ++ ['/', '0']]) = n := by
  have hm : '/' ∈ ds ++ ['/', '0'] :=
    List.mem_append_right _ (List.mem_cons_self _ _)
  have hs : splitChar '/' (ds ++ ['/', '0']) = [ds, ['0']] := by
    rw [splitChar_append_sep '/' ds ['0'] h2]
    rfl
  simp only [get_avg_fps]
  rw [if_pos hm, hs]
  show parse_fraction ds ['0'] = n
  have h0 : pyFloat ['0'] = some 0 := rfl
  simp only [parse_fraction, h0, h1]
  rw [if_neg (fun hh => hh rfl)]
  exact div_one n

/-- C10 witness: the probe value "24/0" parses to fps 24. -/
theorem c10_witness :
    pyFloat ['2', '4'] = some 24
    ∧ '/' ∉ ['2', '4']
    ∧ get_avg_fps (Except.ok [['2', '4'] ++ ['/', '0']]) = 24 :=
  ⟨by decide, by decide,
   c10_zero_denominator ['2', '4'] 24 (by decide) (by decide)⟩

/-- C8: the packaging backend is chosen once per run from tool availability
before any file is processed (Shaka if `packager` is present, else MP4Box if
present, else the run aborts), and the one chosen backend is used for every
source file of the run. -/
theorem c8_packager_once (hv : String → Bool) (files : List String) :
    (hv "packager" = true →
      main_packager_calls hv files = some (files.map (fun f => (f, "shaka"))))
    ∧ (hv "packager" = false → hv "MP4Box" = true →
      main_packager_calls hv files = some (files.map (fun f => (f, "mp4box"))))
    ∧ (hv "packager" = false → hv "MP4Box" = false →
      main_packager_calls hv files = none)
    ∧ (∀ calls, main_packager_calls hv files = some calls →
        ∀ c ∈ calls, ∀ d ∈ calls, c.2 = d.2) := by
  refine ⟨?_, ?_, ?_, ?_⟩
  · intro h
    simp [main_packager_calls, pick_packager, h]
  · intro h h2
    simp [main_packager_calls, pick_packager, h, h2]
  · intro h h2
    simp [main_packager_calls, pick_packager, h, h2]
  · intro calls hc c hcmem d hdmem
    unfold main_packager_calls at hc
    by_cases hE : pick_packager hv = ""
    · rw [if_pos hE] at hc
      exact absurd hc (by simp)
    · rw [if_neg hE] at hc
      obtain rfl : files.map _ = calls := Option.some_inj.1 hc
      obtain ⟨f1, _, rfl⟩ := List.mem_map.1 hcmem
      obtain ⟨f2, _, rfl⟩ := List.mem_map.1 hdmem
      rfl

/-- C8 witness: with only the Shaka packager available both files of a
two-file run are packaged with the Shaka backend. -/
theorem c8_witness :
    main_packager_calls (fun s => s == "packager") ["a", "b"]
      = some [("a", "shaka"), ("b", "shaka")] := by
  have h := (c8_packager_once (fun s => s == "packager") ["a", "b"]).1 (by decide)
  simpa using h

/-- C2: the keyframe interval is `gop(fps) = max(1, round(fps*2))`; in
particular `gop(23.976) = 48` and `gop(0) = 1`, and every rung's GOP is at
least 1. -/
theorem c2_gop_interval :
    (∀ fps : ℚ, 1 ≤ gop fps) ∧ gop (23976/1000) = 48 ∧ gop 0 = 1 :=
  ⟨gop_ge_one, gop_23976, gop_zero⟩
